import Mathlib

/-!
Verification of the POT (penalized optimal transport) trainer in `pot.py`
(class `Pot` and `ImagePot`).  The numeric computations of the TensorFlow
graph are embedded as pure functions over `ℚ`; the transcendental functions
appearing in the graph (the reference normal CDF, `tf.log` and `tf.sqrt`)
are abstracted as function parameters, since every property checked here
holds for the statistic as a program, uniformly in those functions.
-/

namespace PotSpec

/-- Mean of a list of rationals, as `tf.reduce_mean` on a vector:
sum divided by length (0 for the empty list, matching `0 / 0 = 0` in `ℚ`). -/
def listMean (l : List ℚ) : ℚ := l.sum / l.length

/-- Identity on `ℚ`; used to instantiate abstract transcendental parameters
(`cdf`, `log`, `sqrt`) at concrete inputs. -/
def idq : ℚ → ℚ := fun x => x

/-- Ascending sort of a list of rationals. -/
def sortAsc (l : List ℚ) : List ℚ := List.insertionSort (· ≤ ·) l

/-- Descending sort of a list of rationals; models the values returned by
`tf.nn.top_k(transposed, k=batch_size)` along one row (`pot.py` line 421/446),
which are the row values sorted in descending order. -/
def sortDesc (l : List ℚ) : List ℚ := List.insertionSort (· ≥ ·) l

/-- The sorted values used by both tests: `top_k` (descending) followed by
`tf.reverse(values, [1])` (`pot.py` lines 421-422 and 446-447). -/
def topkValuesAsc (l : List ℚ) : List ℚ := (sortDesc l).reverse

/-- Column `j` of an `N x D` batch given as a list of `N` rows. -/
def column (xs : List (List ℚ)) (j : ℕ) : List ℚ := xs.map (fun r => r.getD j 0)

/-- The `D` columns of a batch: the rows of `tf.transpose(input_, perm=[1, 0])`. -/
def columns (D : ℕ) (xs : List (List ℚ)) : List (List ℚ) :=
  (List.range D).map (column xs)

end PotSpec

namespace PotSpec

/-! ### Checkpoint scheduling (`ImagePot._train_internal`, `pot.py` line 780) -/

/-- The condition `_epoch > 0 and _epoch % opts['save_every_epoch'] == 0`
guarding the `self._saver.save(...)` call at the start of each epoch. -/
def save_requested (saveEveryEpoch epoch : ℕ) : Bool :=
  decide (0 < epoch) && decide (epoch % saveEveryEpoch = 0)

/-- The epochs of the loop `for _epoch in xrange(opts["gan_epoch_num"])` at
which a checkpoint save request is issued. -/
def savedEpochs (saveEveryEpoch numEpochs : ℕ) : List ℕ :=
  (List.range numEpochs).filter (fun e => save_requested saveEveryEpoch e)

/-! ### `Pot._run_batch` control flow (`pot.py` lines 91-140)

The helper is modelled by the shape of its `feed` argument: the guard
`assert len(feed.shape) > 0` only fails on rank-0 arrays; otherwise
`num_points = feed.shape[0]`, `batches_num = ceil(num_points / batch_size)`
chunks are collected, `np.vstack` raises a `ValueError` on an empty chunk
list, and finally `assert len(result) == num_points`. -/

/-- Outcome of `Pot._run_batch` as a function of the feed shape: either the
number of stacked result rows, or the exception that aborts the call. -/
def run_batch (batchSize : ℕ) (feedShape : List ℕ) : Except String ℕ :=
  if feedShape.length = 0 then
    Except.error "AssertionError: Empry feed."
  else
    let numPoints := feedShape.headD 0
    let batchesNum := (numPoints + batchSize - 1) / batchSize
    let chunkSizes := (List.range batchesNum).map (fun idx =>
      if idx = batchesNum - 1 then numPoints - idx * batchSize else batchSize)
    if chunkSizes.length = 0 then
      Except.error "ValueError: need at least one array to concatenate"
    else if chunkSizes.sum = numPoints then
      Except.ok numPoints
    else
      Except.error "AssertionError: result length differs from num points"

/-! ### `Pot.sample` and `ImagePot._sample_internal` (`pot.py` lines 67-73, 912-920) -/

/-- `ImagePot._sample_internal`: the sampling computation is commented out
and the method returns `None` for every options dictionary and count. -/
def sample_internal {Opts : Type} (opts : Opts) (num : ℕ) : Option (List ℚ) :=
  none

/-- `Pot.sample`: asserts the model is trained, then delegates to
`_sample_internal`. -/
def sample {Opts : Type} (trained : Bool) (opts : Opts) (num : ℕ) :
    Except String (Option (List ℚ)) :=
  if trained then Except.ok (sample_internal opts num)
  else Except.error "AssertionError: Can not sample from the un-trained POT"

/-! ### Objective assembly (`ImagePot._build_model_internal`, lines 691-698) -/

/-- The scalar objective minimized by the encoder/generator optimizer:
`loss = loss_reconstr + opts['pot_lambda'] * loss_gan`, then
`loss += opts['adv_c_loss_w'] * adv_c_loss + opts['emb_c_loss_w'] * emb_c_loss`
under the guard `opts['adv_c_loss_w'] > 0.0 or opts['emb_c_loss_w'] > 0.0`. -/
def totalLoss (lossReconstr potLambda lossGan advW embW advC embC : ℚ) : ℚ :=
  if 0 < advW ∨ 0 < embW then
    lossReconstr + potLambda * lossGan + (advW * advC + embW * embC)
  else
    lossReconstr + potLambda * lossGan

/-- The objective as the specification words it: reconstruction plus
weighted latent matching, each auxiliary term added exactly when its own
weight is strictly positive. -/
def totalLossSpec (lossReconstr potLambda lossGan advW embW advC embC : ℚ) : ℚ :=
  lossReconstr + potLambda * lossGan
    + (if 0 < advW then advW * advC else 0)
    + (if 0 < embW then embW * embC else 0)

/-! ### Cramer-von Mises test (`ImagePot.discriminator_cramer_test`, lines 399-436) -/

/-- The idealized empirical CDF rungs
`expected = (2 * tf.range(1, batch_size+1) - 1) / (2.0 * batch_size)`
(`pot.py` line 428): entry `i` (0-based) is `(2*(i+1) - 1) / (2*N)`. -/
def expectedRungs (n : ℕ) : List ℚ :=
  (List.range n).map (fun (i : ℕ) => (2 * ((i : ℚ) + 1) - 1) / (2 * (n : ℚ)))

/-- Dot product of two rational vectors. -/
def dot (a b : List ℚ) : ℚ := (List.zipWith (· * ·) a b).sum

/-- Column `k` of the fixed projection matrix `proj` (a `dim x add_dim`
constant in the graph, already mean-centered and normalized). -/
def projColumn (proj : List (List ℚ)) (k : ℕ) : List ℚ :=
  proj.map (fun prow => prow.getD k 0)

/-- The columns of `projected_x = tf.matmul(input_, proj)` (line 410):
column `k` holds, for each batch row, its dot product with `proj` column `k`. -/
def projectedColumns (addDim : ℕ) (proj : List (List ℚ)) (xs : List (List ℚ)) :
    List (List ℚ) :=
  (List.range addDim).map (fun k => xs.map (fun r => dot r (projColumn proj k)))

/-- The columns of `all_dims_x` (lines 404-415): the original `D` latent
columns, extended by the `add_dim` projected columns when `add_dim > 0`. -/
def allDims (D addDim : ℕ) (proj : List (List ℚ)) (xs : List (List ℚ)) :
    List (List ℚ) :=
  if 0 < addDim then columns D xs ++ projectedColumns addDim proj xs
  else columns D xs

/-- Per-dimension Cramer-von Mises term (lines 421-433): sort the column via
`top_k` + `reverse`, apply the reference CDF, take
`reduce_sum(square(expected - normal_cdf)) / batch_size`. -/
def cvmDim (cdf : ℚ → ℚ) (l : List ℚ) : ℚ :=
  (List.zipWith (fun e c => (e - c) ^ 2) (expectedRungs l.length)
      ((topkValuesAsc l).map cdf)).sum / (l.length : ℚ)

/-- `ImagePot.discriminator_cramer_test`: the mean over all (possibly
projection-augmented) dimensions of the per-dimension statistic. -/
def discriminator_cramer_test (cdf : ℚ → ℚ) (D addDim : ℕ)
    (proj : List (List ℚ)) (xs : List (List ℚ)) : ℚ :=
  listMean ((allDims D addDim proj xs).map (cvmDim cdf))

/-- Per-dimension Cramer-von Mises statistic as the specification words it:
sort the `N` values ascending, evaluate the CDF at each sorted value, square
its deviation from the rung `(2i-1)/(2N)` at rank `i`, sum over `i = 1..N`
and divide by `N`. -/
def cvmDimSpec (cdf : ℚ → ℚ) (l : List ℚ) : ℚ :=
  ((List.range l.length).map (fun (i : ℕ) =>
      (cdf ((sortAsc l).getD i 0)
          - (2 * ((i : ℚ) + 1) - 1) / (2 * (l.length : ℚ))) ^ 2)).sum
    / (l.length : ℚ)

/-! ### Anderson-Darling test (`ImagePot.discriminator_anderson_test`, lines 438-460) -/

/-- Per-dimension Anderson-Darling term (lines 446-457): with the column
sorted via `top_k` + `reverse` and `normal_cdf` its CDF images,
`w1 = 2*range(1, N+1) - 1`, `w2 = 2*range(N-1, -1, -1) + 1`, the term is
`-N - reduce_sum(w1 * log(cdf) + w2 * log(1 - cdf)) / N`.  Note the graph
applies `tf.log` directly to the CDF values, with no clamping epsilon. -/
def andDim (log cdf : ℚ → ℚ) (l : List ℚ) : ℚ :=
  -(l.length : ℚ)
    - (List.zipWith (· + ·)
        (List.zipWith (· * ·)
          ((List.range l.length).map (fun (i : ℕ) => 2 * ((i : ℚ) + 1) - 1))
          (((topkValuesAsc l).map cdf).map log))
        (List.zipWith (· * ·)
          ((List.range l.length).map (fun (i : ℕ) =>
            2 * ((l.length : ℚ) - 1 - (i : ℚ)) + 1))
          (((topkValuesAsc l).map cdf).map (fun c => log (1 - c))))).sum
      / (l.length : ℚ)

/-- `ImagePot.discriminator_anderson_test`: the mean over the `D` latent
dimensions of the per-dimension statistic. -/
def discriminator_anderson_test (log cdf : ℚ → ℚ) (D : ℕ)
    (xs : List (List ℚ)) : ℚ :=
  listMean ((columns D xs).map (andDim log cdf))

/-- Per-dimension Anderson-Darling statistic as the specification words it:
`-N - (1/N) * sum_i [(2i-1)*ln(CDF(v_i)) + (2(N-i)+1)*ln(1-CDF(v_i))]` over
the ascending sorted values `v_1..v_N`. -/
def andDimSpec (log cdf : ℚ → ℚ) (l : List ℚ) : ℚ :=
  -(l.length : ℚ) - (1 / (l.length : ℚ)) *
    ((List.range l.length).map (fun (i : ℕ) =>
        (2 * ((i : ℚ) + 1) - 1) * log (cdf ((sortAsc l).getD i 0))
          + (2 * ((l.length : ℚ) - ((i : ℚ) + 1)) + 1)
            * log (1 - cdf ((sortAsc l).getD i 0)))).sum

/-! ### Correlation penalty (`ImagePot.correlation_loss`, lines 462-481) -/

/-- The epsilon `1e-5` added under the square root at line 471. -/
def eps5 : ℚ := 1 / 100000

/-- Mean of column `j` (line 467). -/
def colMean (xs : List (List ℚ)) (j : ℕ) : ℚ :=
  (column xs j).sum / (xs.length : ℚ)

/-- Entry `(j, k)` of the empirical covariance matrix
`cov = centered @ centered^T / batch_size` (lines 468-469). -/
def covM (xs : List (List ℚ)) (j k : ℕ) : ℚ :=
  (xs.map (fun r => (r.getD j 0 - colMean xs j) * (r.getD k 0 - colMean xs k))).sum
    / (xs.length : ℚ)

/-- Entry `(j, k)` of `corr = cov / sigmas` (lines 471-476), where
`sigmas_j = sqrt(cov_jj + 1e-5)` and `sigmas` is their outer product. -/
def corrM (sqrt : ℚ → ℚ) (xs : List (List ℚ)) (j k : ℕ) : ℚ :=
  covM xs j k / (sqrt (covM xs j j + eps5) * sqrt (covM xs k k + eps5))

/-- Entry `(j, k)` of
`triangle = matrix_set_diag(matrix_band_part(corr, 0, -1), zeros)` (line 477):
the strictly-upper-triangular part of the correlation matrix. -/
def triangleM (sqrt : ℚ → ℚ) (xs : List (List ℚ)) (j k : ℕ) : ℚ :=
  if j < k then corrM sqrt xs j k else 0

/-- `ImagePot.correlation_loss`:
`loss = reduce_sum(square(triangle)) / ((dim * dim - dim) / 2.0)` (line 479). -/
def correlation_loss (sqrt : ℚ → ℚ) (D : ℕ) (xs : List (List ℚ)) : ℚ :=
  (∑ j ∈ Finset.range D, ∑ k ∈ Finset.range D, triangleM sqrt xs j k ^ 2)
    / (((D : ℚ) * (D : ℚ) - (D : ℚ)) / 2)

/-! ### Reconstruction loss (`ImagePot._build_model_internal`, lines 658-669)

`real_points` and `reconstructed_training` are rank-4 tensors of shape
`[batch, height, width, channels]`; a batch is a list of images, an image a
height-indexed list of width-indexed lists of channel vectors. -/

/-- A rank-4 tensor: batch of `H x W x C` images. -/
abbrev Batch4 := List (List (List (List ℚ)))

/-- The epsilon `1e-08` added under the square root at line 663. -/
def eps8 : ℚ := 1 / 100000000

/-- Pixel `(h, w, c)` of image `n` of a batch. -/
def pix (xs : Batch4) (n h w c : ℕ) : ℚ :=
  (((xs.getD n []).getD h []).getD w []).getD c 0

/-- `tf.reduce_sum(tf.square(real_points - reconstructed_training), axis=1)`
(line 660): entry `(n, w, c)` sums the squared differences over the height
axis only. -/
def sqDiffHeightSum (H : ℕ) (re rec : Batch4) (n w c : ℕ) : ℚ :=
  ∑ h ∈ Finset.range H, (pix re n h w c - pix rec n h w c) ^ 2

/-- The `recon_loss = 'l2'` branch (lines 658-663):
`reduce_mean(sqrt(reduce_sum(square(diff), axis=1) + 1e-08))`, the mean
running over all `(n, w, c)` entries of the rank-3 tensor. -/
def loss_reconstr_l2 (sqrt : ℚ → ℚ) (H W C : ℕ) (re rec : Batch4) : ℚ :=
  (∑ n ∈ Finset.range re.length, ∑ w ∈ Finset.range W, ∑ c ∈ Finset.range C,
      sqrt (sqDiffHeightSum H re rec n w c + eps8))
    / ((re.length : ℚ) * (W : ℚ) * (C : ℚ))

/-- The L2 reconstruction loss as the claim words it: the mean over the batch
of the square root of (a small epsilon plus the sum of squared differences
over all components of the flattened point representation). -/
def loss_reconstr_l2_claim (sqrt : ℚ → ℚ) (H W C : ℕ) (re rec : Batch4) : ℚ :=
  (∑ n ∈ Finset.range re.length,
      sqrt (eps8 + ∑ h ∈ Finset.range H, ∑ w ∈ Finset.range W,
          ∑ c ∈ Finset.range C, (pix re n h w c - pix rec n h w c) ^ 2))
    / (re.length : ℚ)

/-- `tf.reduce_sum(tf.abs(real_points - reconstructed_training), axis=1)`
(line 666): entry `(n, w, c)` sums the absolute differences over the height
axis only. -/
def absDiffHeightSum (H : ℕ) (re rec : Batch4) (n w c : ℕ) : ℚ :=
  ∑ h ∈ Finset.range H, |pix re n h w c - pix rec n h w c|

/-- The `recon_loss = 'l1'` branch (lines 664-667):
`reduce_mean(reduce_sum(abs(diff), axis=1))`, the mean running over all
`(n, w, c)` entries of the rank-3 tensor. -/
def loss_reconstr_l1 (H W C : ℕ) (re rec : Batch4) : ℚ :=
  (∑ n ∈ Finset.range re.length, ∑ w ∈ Finset.range W, ∑ c ∈ Finset.range C,
      absDiffHeightSum H re rec n w c)
    / ((re.length : ℚ) * (W : ℚ) * (C : ℚ))

/-- The L1 reconstruction loss as the claim words it: the mean over the batch
of the sum of absolute differences over all components of the flattened
point representation. -/
def loss_reconstr_l1_claim (H W C : ℕ) (re rec : Batch4) : ℚ :=
  (∑ n ∈ Finset.range re.length, ∑ h ∈ Finset.range H, ∑ w ∈ Finset.range W,
      ∑ c ∈ Finset.range C, |pix re n h w c - pix rec n h w c|)
    / (re.length : ℚ)

/-! ### Concrete instantiations used to probe the Anderson-Darling log site -/

/-- A reference CDF hitting the value `0`, as the float normal CDF does on
sufficiently negative inputs. -/
def cdfZero : ℚ → ℚ := fun _ => 0

/-- A stand-in logarithm; agrees with `logZeroB` everywhere except at `0`. -/
def logZeroA : ℚ → ℚ := fun _ => 0

/-- A stand-in logarithm differing from `logZeroA` only at `0`; the two
statistics they induce differ, witnessing that the graph evaluates the
logarithm at a CDF value of `0`. -/
def logZeroB : ℚ → ℚ := fun x => if x = 0 then 1 else 0

end PotSpec

namespace PotSpec

/-- C8: during training with `save_every_epoch = k`, a checkpoint save request
is issued at the start of epoch `e` exactly when `e > 0` and `e` is a multiple
of `k`, and never at epoch `0`; over a run of `n` epochs the saving epochs are
exactly the positive multiples of `k` below `n`. -/
theorem save_schedule_correct (k n e : ℕ) :
    (save_requested k e = true ↔ 0 < e ∧ k ∣ e)
      ∧ (e ∈ savedEpochs k n ↔ e < n ∧ 0 < e ∧ k ∣ e)
      ∧ save_requested k 0 = false := by
  have hmod : e % k = 0 ↔ k ∣ e := by
    constructor
    · exact fun h => Nat.dvd_of_mod_eq_zero h
    · intro h
      obtain ⟨c, rfl⟩ := h
      exact Nat.mul_mod_right k c
  have hreq : save_requested k e = true ↔ 0 < e ∧ k ∣ e := by
    unfold save_requested
    rw [Bool.and_eq_true, decide_eq_true_eq, decide_eq_true_eq, hmod]
  refine ⟨hreq, ?_, ?_⟩
  · simp only [savedEpochs, List.mem_filter, List.mem_range]
    rw [hreq]
  · simp [save_requested]

/-- C9 evidence: on a feed holding zero points (shape `(0, 64)`, so the first
dimension is `0`), `_run_batch` does not fail with its assertion: the guard
`len(feed.shape) > 0` passes, no batch is processed, and the call aborts at
`np.vstack([])` with a `ValueError` instead. -/
theorem run_batch_empty_feed_not_assertion :
    run_batch 10 [0, 64]
      = Except.error "ValueError: need at least one array to concatenate" := by
  rfl

/-- C10: for every options value and every requested number of points,
sampling from a trained model returns `None`: `_sample_internal` ignores its
arguments and the public `sample` wraps that `None` without error. -/
theorem sample_returns_none (Opts : Type) (opts : Opts) (num : ℕ) (trained : Bool)
    (h : trained = true) :
    sample trained opts num = Except.ok none := by
  subst h
  rfl

/-- C10 witness: sampling 100 points from a trained model yields `None`. -/
theorem sample_returns_none_witness :
    (true : Bool) = true ∧ sample true () 100 = Except.ok none :=
  ⟨rfl, sample_returns_none Unit () 100 true rfl⟩

/-- C2: for nonnegative configuration weights, the objective minimized by the
encoder/generator optimizer equals reconstruction loss plus
`pot_lambda`-weighted latent-matching loss, with each auxiliary term
`adv_c_loss_w * adv_c_loss` and `emb_c_loss_w * emb_c_loss` contributing
exactly when its weight is strictly positive. -/
theorem total_loss_correct (lossReconstr potLambda lossGan advW embW advC embC : ℚ)
    (ha : 0 ≤ advW) (he : 0 ≤ embW) :
    totalLoss lossReconstr potLambda lossGan advW embW advC embC
      = totalLossSpec lossReconstr potLambda lossGan advW embW advC embC := by
  rcases eq_or_lt_of_le ha with ha0 | hap
  · rcases eq_or_lt_of_le he with he0 | hep
    · rw [← ha0, ← he0]
      simp [totalLoss, totalLossSpec]
    · rw [← ha0]
      simp [totalLoss, totalLossSpec, hep]
      try ring
  · rcases eq_or_lt_of_le he with he0 | hep
    · rw [← he0]
      simp [totalLoss, totalLossSpec, hap]
      try ring
    · simp [totalLoss, totalLossSpec, hap, hep]
      try ring

/-- C2 witness: objective assembly at concrete values with
`adv_c_loss_w = 1/2 > 0` and `emb_c_loss_w = 0`. -/
theorem total_loss_correct_witness :
    (0:ℚ) ≤ 1/2 ∧ (0:ℚ) ≤ 0
      ∧ totalLoss 1 2 3 (1/2) 0 5 7 = totalLossSpec 1 2 3 (1/2) 0 5 7 :=
  ⟨by norm_num, le_refl 0,
    total_loss_correct 1 2 3 (1/2) 0 5 7 (by norm_num) (le_refl 0)⟩

/-! ### Sorting: `top_k` descending followed by `reverse` is the ascending sort -/

/-- `sortAsc` produces an ascending-sorted list. -/
theorem sortAsc_sorted (l : List ℚ) : List.Sorted (· ≤ ·) (sortAsc l) :=
  List.sorted_insertionSort _ l

/-- `sortAsc` permutes its input. -/
theorem sortAsc_perm (l : List ℚ) : List.Perm (sortAsc l) l :=
  List.perm_insertionSort _ l

/-- `sortAsc` preserves length. -/
theorem length_sortAsc (l : List ℚ) : (sortAsc l).length = l.length :=
  (sortAsc_perm l).length_eq

/-- Two lists with the same multiset of values have the same ascending sort. -/
theorem sortAsc_eq_of_perm (l₁ l₂ : List ℚ) (h : List.Perm l₁ l₂) :
    sortAsc l₁ = sortAsc l₂ :=
  List.eq_of_perm_of_sorted
    ((sortAsc_perm l₁).trans (h.trans (sortAsc_perm l₂).symm))
    (sortAsc_sorted l₁) (sortAsc_sorted l₂)

/-- The values delivered by `top_k` (descending) and then `tf.reverse` are
exactly the ascending sort of the column. -/
theorem topkValuesAsc_eq_sortAsc (l : List ℚ) : topkValuesAsc l = sortAsc l := by
  refine List.eq_of_perm_of_sorted ?_ ?_ (sortAsc_sorted l)
  · exact ((sortDesc l).reverse_perm.trans (List.perm_insertionSort _ l)).trans
      (sortAsc_perm l).symm
  · exact List.pairwise_reverse.mpr (List.sorted_insertionSort _ l)

/-- `topkValuesAsc` preserves length. -/
theorem length_topkValuesAsc (l : List ℚ) : (topkValuesAsc l).length = l.length := by
  rw [topkValuesAsc_eq_sortAsc, length_sortAsc]

/-! ### Sums of `zipWith` against an index range -/

/-- Pointwise sum of two `zipWith`s over the same index/value lists. -/
theorem zipWith_add_zipWith (F G : ℕ → ℚ → ℚ) :
    ∀ (r : List ℕ) (v : List ℚ),
      List.zipWith (· + ·) (List.zipWith F r v) (List.zipWith G r v)
        = List.zipWith (fun i x => F i x + G i x) r v
  | [], _ => by simp
  | _ :: _, [] => by simp
  | i :: r, x :: v => by
    simp only [List.zipWith_cons_cons]
    rw [zipWith_add_zipWith F G r v]

/-- A `zipWith` against `range` is the `range`-indexed sum of the elements
accessed positionally. -/
theorem sum_zipWith_range :
    ∀ (g : ℕ → ℚ → ℚ) (v : List ℚ),
      (List.zipWith g (List.range v.length) v).sum
        = ((List.range v.length).map (fun i => g i (v.getD i 0))).sum
  | _, [] => by simp
  | g, a :: t => by
    have ih := sum_zipWith_range (fun i x => g (i + 1) x) t
    simp only [List.length_cons, List.range_succ_eq_map, List.zipWith_cons_cons,
      List.map_cons, List.sum_cons, List.getD_cons_zero]
    rw [List.zipWith_map_left, List.map_map]
    congr 1

/-! ### C1: Cramer-von Mises statistic -/

/-- Per-dimension agreement between the graph computation and the
specification formula for the Cramer-von Mises term. -/
theorem cvmDim_eq_spec (cdf : ℚ → ℚ) (l : List ℚ) :
    cvmDim cdf l = cvmDimSpec cdf l := by
  unfold cvmDim cvmDimSpec expectedRungs
  rw [topkValuesAsc_eq_sortAsc]
  rw [List.zipWith_map_left, List.zipWith_map_right]
  have hlen : List.range l.length = List.range (sortAsc l).length := by
    rw [length_sortAsc]
  rw [hlen, sum_zipWith_range (fun i x =>
      ((2 * ((i : ℚ) + 1) - 1) / (2 * (l.length : ℚ)) - cdf x) ^ 2) (sortAsc l),
    ← hlen]
  congr 1
  exact congrArg List.sum (List.map_congr_left fun i _ => by ring)

/-- C1: for every batch of latent codes with at least one row (augmented by
the fixed random 1-D projections when `z_test_proj_dim > 0`), the
Cramer-von Mises statistic returned by `discriminator_cramer_test` equals
the average, over the (augmented) dimensions, of the per-dimension value
obtained by sorting the `N` column values ascending, evaluating the
reference CDF at each sorted value, summing the squared deviations from the
rungs `(2i-1)/(2N)` for `i = 1..N`, and dividing by `N`. -/
theorem cramer_test_matches_spec (cdf : ℚ → ℚ) (D addDim : ℕ)
    (proj xs : List (List ℚ)) (h : 1 ≤ xs.length) :
    discriminator_cramer_test cdf D addDim proj xs
      = listMean ((allDims D addDim proj xs).map (cvmDimSpec cdf)) := by
  unfold discriminator_cramer_test
  exact congrArg listMean (List.map_congr_left fun l _ => cvmDim_eq_spec cdf l)

/-- C1 witness: the Cramer-von Mises statistic on the concrete 2 x 2 batch
`[[1, 2], [3, 4]]` (no extra projections) agrees with the specification
formula. -/
theorem cramer_test_matches_spec_witness :
    1 ≤ ([[(1:ℚ), 2], [3, 4]] : List (List ℚ)).length
      ∧ discriminator_cramer_test idq 2 0 [] [[(1:ℚ), 2], [3, 4]]
          = listMean ((allDims 2 0 [] [[(1:ℚ), 2], [3, 4]]).map (cvmDimSpec idq)) :=
  ⟨by simp, cramer_test_matches_spec idq 2 0 [] [[(1:ℚ), 2], [3, 4]] (by simp)⟩

/-! ### C3: Anderson-Darling statistic -/

/-- Per-dimension agreement between the graph computation and the
specification formula for the Anderson-Darling term. -/
theorem andDim_eq_spec (log cdf : ℚ → ℚ) (l : List ℚ) :
    andDim log cdf l = andDimSpec log cdf l := by
  unfold andDim andDimSpec
  rw [topkValuesAsc_eq_sortAsc]
  simp only [List.map_map, List.zipWith_map_left, List.zipWith_map_right,
    zipWith_add_zipWith]
  have hlen : List.range l.length = List.range (sortAsc l).length := by
    rw [length_sortAsc]
  rw [hlen, sum_zipWith_range (fun i x =>
      (2 * ((i : ℚ) + 1) - 1) * ((log ∘ cdf) x)
        + (2 * ((l.length : ℚ) - 1 - (i : ℚ)) + 1) * ((fun c => log (1 - c)) ∘ cdf) x)
      (sortAsc l), ← hlen]
  have hmaps :
      (List.range l.length).map (fun (i : ℕ) =>
          (2 * ((i : ℚ) + 1) - 1) * ((log ∘ cdf) ((sortAsc l).getD i 0))
            + (2 * ((l.length : ℚ) - 1 - (i : ℚ)) + 1)
              * ((fun c => log (1 - c)) ∘ cdf) ((sortAsc l).getD i 0))
        = (List.range l.length).map (fun (i : ℕ) =>
            (2 * ((i : ℚ) + 1) - 1) * log (cdf ((sortAsc l).getD i 0))
              + (2 * ((l.length : ℚ) - ((i : ℚ) + 1)) + 1)
                * log (1 - cdf ((sortAsc l).getD i 0))) :=
    List.map_congr_left fun i _ => by
      simp only [Function.comp_apply]
      ring
  rw [hmaps]
  ring

/-- C3: for every batch of latent codes with at least one row, the
Anderson-Darling statistic returned by `discriminator_anderson_test` equals
the average, over the `D` latent dimensions, of
`-N - (1/N) * sum_i [(2i-1) ln(CDF(v_i)) + (2(N-i)+1) ln(1-CDF(v_i))]`
computed on the ascending sorted column values `v_1..v_N`. -/
theorem anderson_test_matches_spec (log cdf : ℚ → ℚ) (D : ℕ)
    (xs : List (List ℚ)) (h : 1 ≤ xs.length) :
    discriminator_anderson_test log cdf D xs
      = listMean ((columns D xs).map (andDimSpec log cdf)) := by
  unfold discriminator_anderson_test
  exact congrArg listMean (List.map_congr_left fun l _ => andDim_eq_spec log cdf l)

/-- C3 witness: the Anderson-Darling statistic on the concrete 2 x 2 batch
`[[1, 2], [3, 4]]` agrees with the specification formula. -/
theorem anderson_test_matches_spec_witness :
    1 ≤ ([[(1:ℚ), 2], [3, 4]] : List (List ℚ)).length
      ∧ discriminator_anderson_test idq idq 2 [[(1:ℚ), 2], [3, 4]]
          = listMean ((columns 2 [[(1:ℚ), 2], [3, 4]]).map (andDimSpec idq idq)) :=
  ⟨by simp, anderson_test_matches_spec idq idq 2 [[(1:ℚ), 2], [3, 4]] (by simp)⟩

/-! ### C7: invariance under permutation of the batch rows -/

/-- The per-dimension Cramer-von Mises term only depends on the multiset of
column values. -/
theorem cvmDim_congr_perm (cdf : ℚ → ℚ) (l₁ l₂ : List ℚ) (h : List.Perm l₁ l₂) :
    cvmDim cdf l₁ = cvmDim cdf l₂ := by
  unfold cvmDim
  rw [topkValuesAsc_eq_sortAsc, topkValuesAsc_eq_sortAsc,
    sortAsc_eq_of_perm l₁ l₂ h, h.length_eq]

/-- The per-dimension Anderson-Darling term only depends on the multiset of
column values. -/
theorem andDim_congr_perm (log cdf : ℚ → ℚ) (l₁ l₂ : List ℚ)
    (h : List.Perm l₁ l₂) : andDim log cdf l₁ = andDim log cdf l₂ := by
  unfold andDim
  rw [topkValuesAsc_eq_sortAsc, topkValuesAsc_eq_sortAsc,
    sortAsc_eq_of_perm l₁ l₂ h, h.length_eq]

/-- Mapping a column statistic over the latent columns is unchanged by a
permutation of the batch rows. -/
theorem columns_map_stat_perm (f : List ℚ → ℚ)
    (hf : ∀ l₁ l₂, List.Perm l₁ l₂ → f l₁ = f l₂)
    (D : ℕ) (xs ys : List (List ℚ)) (h : List.Perm xs ys) :
    (columns D xs).map f = (columns D ys).map f := by
  unfold columns
  rw [List.map_map, List.map_map]
  exact List.map_congr_left fun j _ => hf _ _ (h.map _)

/-- Mapping a column statistic over the projected columns is unchanged by a
permutation of the batch rows. -/
theorem projected_map_stat_perm (f : List ℚ → ℚ)
    (hf : ∀ l₁ l₂, List.Perm l₁ l₂ → f l₁ = f l₂)
    (addDim : ℕ) (proj : List (List ℚ)) (xs ys : List (List ℚ))
    (h : List.Perm xs ys) :
    (projectedColumns addDim proj xs).map f
      = (projectedColumns addDim proj ys).map f := by
  unfold projectedColumns
  rw [List.map_map, List.map_map]
  exact List.map_congr_left fun k _ => hf _ _ (h.map _)

/-- Column means are unchanged by a permutation of the batch rows. -/
theorem colMean_congr_perm (xs ys : List (List ℚ)) (h : List.Perm xs ys)
    (j : ℕ) : colMean xs j = colMean ys j := by
  unfold colMean column
  rw [(h.map _).sum_eq, h.length_eq]

/-- Covariance entries are unchanged by a permutation of the batch rows. -/
theorem covM_congr_perm (xs ys : List (List ℚ)) (h : List.Perm xs ys)
    (j k : ℕ) : covM xs j k = covM ys j k := by
  unfold covM
  rw [colMean_congr_perm xs ys h j, colMean_congr_perm xs ys h k, h.length_eq,
    (h.map _).sum_eq]

/-- Correlation entries are unchanged by a permutation of the batch rows. -/
theorem corrM_congr_perm (sq : ℚ → ℚ) (xs ys : List (List ℚ))
    (h : List.Perm xs ys) (j k : ℕ) : corrM sq xs j k = corrM sq ys j k := by
  unfold corrM
  rw [covM_congr_perm xs ys h j k, covM_congr_perm xs ys h j j,
    covM_congr_perm xs ys h k k]

/-- C7: for every batch and every permutation of its rows, the Cramer-von
Mises statistic (with any projection augmentation), the Anderson-Darling
statistic, and the correlation penalty are unchanged. -/
theorem batch_permutation_invariance (cdf log sq : ℚ → ℚ) (D addDim : ℕ)
    (proj : List (List ℚ)) (xs ys : List (List ℚ)) (h : List.Perm xs ys) :
    discriminator_cramer_test cdf D addDim proj xs
        = discriminator_cramer_test cdf D addDim proj ys
      ∧ discriminator_anderson_test log cdf D xs
          = discriminator_anderson_test log cdf D ys
      ∧ correlation_loss sq D xs = correlation_loss sq D ys := by
  refine ⟨?_, ?_, ?_⟩
  · unfold discriminator_cramer_test
    refine congrArg listMean ?_
    unfold allDims
    by_cases had : 0 < addDim
    · rw [if_pos had, if_pos had, List.map_append, List.map_append,
        columns_map_stat_perm (cvmDim cdf) (cvmDim_congr_perm cdf) D xs ys h,
        projected_map_stat_perm (cvmDim cdf) (cvmDim_congr_perm cdf)
          addDim proj xs ys h]
    · rw [if_neg had, if_neg had,
        columns_map_stat_perm (cvmDim cdf) (cvmDim_congr_perm cdf) D xs ys h]
  · unfold discriminator_anderson_test
    exact congrArg listMean
      (columns_map_stat_perm (andDim log cdf) (andDim_congr_perm log cdf) D xs ys h)
  · unfold correlation_loss
    congr 1
    refine Finset.sum_congr rfl fun j _ => Finset.sum_congr rfl fun k _ => ?_
    unfold triangleM
    rw [corrM_congr_perm sq xs ys h j k]

/-- C7 witness: the three statistics agree on the 2 x 2 batch
`[[1, 2], [3, 4]]` and its row-swapped permutation. -/
theorem batch_permutation_invariance_witness :
    List.Perm ([[(1:ℚ), 2], [3, 4]] : List (List ℚ)) [[3, 4], [1, 2]]
      ∧ (discriminator_cramer_test idq 2 0 [] [[(1:ℚ), 2], [3, 4]]
            = discriminator_cramer_test idq 2 0 [] [[3, 4], [1, 2]]
          ∧ discriminator_anderson_test idq idq 2 [[(1:ℚ), 2], [3, 4]]
              = discriminator_anderson_test idq idq 2 [[3, 4], [1, 2]]
          ∧ correlation_loss idq 2 [[(1:ℚ), 2], [3, 4]]
              = correlation_loss idq 2 [[3, 4], [1, 2]]) :=
  ⟨List.Perm.swap [3, 4] [(1:ℚ), 2] [],
    batch_permutation_invariance idq idq idq 2 0 [] [[(1:ℚ), 2], [3, 4]]
      [[3, 4], [1, 2]] (List.Perm.swap [3, 4] [(1:ℚ), 2] [])⟩

/-! ### C4: correlation penalty -/

/-- The covariance matrix is symmetric. -/
theorem covM_symm (xs : List (List ℚ)) (j k : ℕ) : covM xs j k = covM xs k j := by
  unfold covM
  congr 1
  exact congrArg List.sum (List.map_congr_left fun r _ => by ring)

/-- The correlation matrix is symmetric. -/
theorem corrM_symm (sq : ℚ → ℚ) (xs : List (List ℚ)) (j k : ℕ) :
    corrM sq xs j k = corrM sq xs k j := by
  unfold corrM
  rw [covM_symm xs j k, mul_comm]

/-- Diagonal covariance entries (variances) are nonnegative. -/
theorem covM_diag_nonneg (xs : List (List ℚ)) (j : ℕ) : 0 ≤ covM xs j j := by
  unfold covM
  apply div_nonneg
  · apply List.sum_nonneg
    intro x hx
    obtain ⟨r, _, rfl⟩ := List.mem_map.mp hx
    exact mul_self_nonneg _
  · exact Nat.cast_nonneg _

/-- C4: the correlation penalty equals the sum of squares of the
strictly-upper-triangular correlation entries divided by `D(D-1)/2`; it is
`0` exactly when every off-diagonal correlation entry is `0`, and strictly
positive whenever some off-diagonal correlation entry is nonzero. -/
theorem correlation_loss_props (sq : ℚ → ℚ) (D : ℕ) (xs : List (List ℚ)) :
    correlation_loss sq D xs
        = (∑ j ∈ Finset.range D, ∑ k ∈ Finset.Ioo j D, corrM sq xs j k ^ 2)
          / ((D : ℚ) * ((D : ℚ) - 1) / 2)
      ∧ (correlation_loss sq D xs = 0
          ↔ ∀ j k, j < D → k < D → j ≠ k → corrM sq xs j k = 0)
      ∧ ((∃ j k, j < D ∧ k < D ∧ j ≠ k ∧ corrM sq xs j k ≠ 0)
          → 0 < correlation_loss sq D xs) := by
  have hterm : ∀ j k : ℕ, triangleM sq xs j k ^ 2
      = if j < k then corrM sq xs j k ^ 2 else 0 := by
    intro j k
    unfold triangleM
    split_ifs <;> simp
  have hfilter : ∀ j : ℕ,
      Finset.filter (fun k => j < k) (Finset.range D) = Finset.Ioo j D := by
    intro j
    ext k
    simp [Finset.mem_Ioo, and_comm]
  have hnum : (∑ j ∈ Finset.range D, ∑ k ∈ Finset.range D, triangleM sq xs j k ^ 2)
      = ∑ j ∈ Finset.range D, ∑ k ∈ Finset.Ioo j D, corrM sq xs j k ^ 2 := by
    refine Finset.sum_congr rfl fun j _ => ?_
    rw [← hfilter j, Finset.sum_filter]
    exact Finset.sum_congr rfl fun k _ => hterm j k
  refine ⟨?_, ⟨?_, ?_⟩, ?_⟩
  · unfold correlation_loss
    rw [hnum]
    congr 1
    ring
  · intro h0 j k hj hk hjk
    unfold correlation_loss at h0
    rcases div_eq_zero_iff.mp h0 with hS | hd
    · have hnonneg : ∀ a ∈ Finset.range D,
          0 ≤ ∑ b ∈ Finset.range D, triangleM sq xs a b ^ 2 :=
        fun a _ => Finset.sum_nonneg fun b _ => sq_nonneg _
      have hall := (Finset.sum_eq_zero_iff_of_nonneg hnonneg).mp hS
      have hterm0 : ∀ a b, a < D → b < D → triangleM sq xs a b = 0 := by
        intro a b ha hb
        have hinner := hall a (Finset.mem_range.mpr ha)
        have hz := (Finset.sum_eq_zero_iff_of_nonneg
            fun b _ => sq_nonneg _).mp hinner b (Finset.mem_range.mpr hb)
        exact (pow_eq_zero_iff two_ne_zero).mp hz
      rcases Nat.lt_or_ge j k with hlt | hge
      · have ht := hterm0 j k hj hk
        unfold triangleM at ht
        rwa [if_pos hlt] at ht
      · have hklt : k < j := by omega
        have ht := hterm0 k j hk hj
        unfold triangleM at ht
        rw [if_pos hklt] at ht
        rw [corrM_symm]
        exact ht
    · exfalso
      have hD2 : 2 ≤ D := by omega
      have hD2q : (2 : ℚ) ≤ (D : ℚ) := by exact_mod_cast hD2
      have hzero : (D : ℚ) * (D : ℚ) - (D : ℚ) = 0 := by
        have := div_eq_zero_iff.mp hd
        rcases this with hn | h2
        · exact hn
        · norm_num at h2
      nlinarith
  · intro hall
    unfold correlation_loss
    have hS : (∑ j ∈ Finset.range D, ∑ k ∈ Finset.range D, triangleM sq xs j k ^ 2)
        = 0 := by
      apply Finset.sum_eq_zero
      intro j hj
      apply Finset.sum_eq_zero
      intro k hk
      unfold triangleM
      split_ifs with hlt
      · rw [hall j k (Finset.mem_range.mp hj) (Finset.mem_range.mp hk)
          (Nat.ne_of_lt hlt)]
        norm_num
      · norm_num
    rw [hS, zero_div]
  · rintro ⟨j, k, hj, hk, hjk, hcorr⟩
    obtain ⟨a, b, ha, hb, hab, hc⟩ :
        ∃ a b, a < D ∧ b < D ∧ a < b ∧ corrM sq xs a b ≠ 0 := by
      rcases Nat.lt_or_ge j k with hlt | hge
      · exact ⟨j, k, hj, hk, hlt, hcorr⟩
      · have hklt : k < j := by omega
        refine ⟨k, j, hk, hj, hklt, ?_⟩
        rw [corrM_symm sq xs k j]
        exact hcorr
    unfold correlation_loss
    apply div_pos
    · apply Finset.sum_pos'
      · intro i _
        exact Finset.sum_nonneg fun b _ => sq_nonneg _
      · refine ⟨a, Finset.mem_range.mpr ha, ?_⟩
        apply Finset.sum_pos'
        · intro i _
          exact sq_nonneg _
        · refine ⟨b, Finset.mem_range.mpr hb, ?_⟩
          have htb : triangleM sq xs a b = corrM sq xs a b := by
            unfold triangleM
            rw [if_pos hab]
          rw [htb]
          exact lt_of_le_of_ne (sq_nonneg _) (Ne.symm (pow_ne_zero 2 hc))
    · have hD2 : 2 ≤ D := by omega
      have hD2q : (2 : ℚ) ≤ (D : ℚ) := by exact_mod_cast hD2
      nlinarith

/-! ### C6: epsilon guards at the statistic computation sites -/

/-- The two logarithm stand-ins agree at every nonzero argument; they differ
only at `0`. -/
theorem logZeroA_eq_logZeroB_away_from_zero (x : ℚ) (hx : x ≠ 0) :
    logZeroA x = logZeroB x := by
  simp [logZeroA, logZeroB, hx]

/-- C6 counterexample: the Anderson-Darling statistic distinguishes two
logarithms that agree everywhere except at `0`, on a batch whose CDF images
are `0`.  Hence the graph evaluates `ln` at a CDF value of exactly `0` (no
clamping epsilon bounds the CDF away from `0` and `1` at that site), so the
site can produce `ln(0)`, contrary to the claim. -/
theorem anderson_log_evaluated_at_zero :
    discriminator_anderson_test logZeroA cdfZero 1 [[0]]
      ≠ discriminator_anderson_test logZeroB cdfZero 1 [[0]] := by
  norm_num [discriminator_anderson_test, andDim, columns, column, topkValuesAsc,
    sortDesc, listMean, cdfZero, logZeroA, logZeroB, List.range_succ,
    Function.comp, List.insertionSort, List.orderedInsert]

/-- C6 (amended): the division-by-variance site in the correlation penalty is
guarded: the argument of the square root, `cov_jj + 1e-5`, is bounded below
by the fixed epsilon `1e-5` and hence strictly positive for every batch and
dimension.  (The Anderson-Darling log site, by contrast, applies `ln`
directly to the raw CDF values; see the counterexample.) -/
theorem correlation_variance_guard (xs : List (List ℚ)) (j : ℕ) :
    eps5 ≤ covM xs j j + eps5 ∧ 0 < covM xs j j + eps5 := by
  have h := covM_diag_nonneg xs j
  have he : (0:ℚ) < eps5 := by norm_num [eps5]
  exact ⟨by linarith, by linarith⟩

/-! ### C5: reconstruction loss and the `axis=1` reduction -/

/-- C5 evidence: on the batch holding the single `1 x 2 x 1` image
`[[1], [0]]` with reconstruction `[[0], [0]]`, neither the L1 nor the L2
branch equals the claimed per-point flattened norm: the code sums only over
the height axis (`axis=1`) and then averages over batch, width and channel
positions, yielding `1/2` for L1 where the claimed mean-of-flattened-sums is
`1` (and the corresponding mismatch for L2, uniformly in the square-root
stand-in). -/
theorem recon_loss_axis1_mismatch :
    loss_reconstr_l1 1 2 1 [[[[1], [0]]]] [[[[0], [0]]]]
        ≠ loss_reconstr_l1_claim 1 2 1 [[[[1], [0]]]] [[[[0], [0]]]]
      ∧ loss_reconstr_l2 idq 1 2 1 [[[[1], [0]]]] [[[[0], [0]]]]
          ≠ loss_reconstr_l2_claim idq 1 2 1 [[[[1], [0]]]] [[[[0], [0]]]] := by
  constructor
  · norm_num [loss_reconstr_l1, loss_reconstr_l1_claim, absDiffHeightSum, pix,
      Finset.sum_range_succ]
  · norm_num [loss_reconstr_l2, loss_reconstr_l2_claim, sqDiffHeightSum, pix,
      idq, eps8, Finset.sum_range_succ]

end PotSpec
